import Mathlib

/-!
Shallow embedding of the public-input container of
`plonky2x/core/src/backend/circuit/input.rs`.

Field elements (the `L::Field` type parameter) are an abstract type `F`;
bytes (`u8`) and the opaque external types (`ProofId`, verifier keys,
circuit-shape descriptors) are modelled as `Nat`.  Rust panics are
modelled as `Except` errors: a panicking operation returns `.error e` and
no updated container, matching the fact that every panic in the source
fires before any mutation of `self`.  The external codec is passed in as
explicit function parameters (`enc`, `decodeByte`) where the source uses
generic trait methods (`V::elements`, `V::encode_value`,
`ByteVariable::nb_elements`, `ValueStream::read_value`).
-/

/-- The proof object consumed by extraction: an opaque proof body plus the
ordered public-output buffer of field elements, as in
`ProofWithPublicInputs`. -/
structure ProofWithPublicInputs (F : Type) where
  proof : Nat
  public_inputs : List F

/-- Verifier-key material plus circuit-shape descriptor
(`VerifierCircuitData`), opaque to this component. -/
structure VerifierCircuitData where
  verifier_only : Nat
  common : Nat

/-- The serializable wrapper over the same two fields
(`MyVerifierCircuitData`). -/
structure MyVerifierCircuitData where
  verifier_only : Nat
  common : Nat

/-- Conversion `MyVerifierCircuitData::materialize`. -/
def MyVerifierCircuitData.materialize (d : MyVerifierCircuitData) :
    VerifierCircuitData :=
  ⟨d.verifier_only, d.common⟩

/-- The circuit IO declaration consumed from the frontend.  The file under
verification matches exhaustively on exactly these five variants and, for
`Bytes` and `Elements`, reads only the declared input length
(`io.input.len()`), which is what the variants carry here. -/
inductive CircuitIO where
  | Bytes (inputLen : Nat)
  | Elements (inputLen : Nat)
  | RecursiveProofs
  | CyclicProof
  | None

/-- The public-input container (`enum PublicInput`). -/
inductive PublicInput (F : Type) where
  | Bytes (bytes : List Nat)
  | Elements (elems : List F)
  | RecursiveProofs (proofs : List (ProofWithPublicInputs F))
  | RemoteRecursiveProofs (ids : List Nat)
  | CyclicProof (elems : List F) (proof : Option (ProofWithPublicInputs F))
      (data : Option MyVerifierCircuitData)
  | None

/-- The error kinds, one per Rust panic site.  `WrongModeError` covers the
`panic!` calls reporting that the needed io mode is not enabled,
`SlotAlreadySetError` the `panic!` on an already-filled cyclic slot,
`SliceOutOfRange` the Rust range-slice panic that
`public_inputs[..offset]` raises when `offset` exceeds the buffer length,
and `Unimplemented` the `todo!()` sites. -/
inductive PIError where
  | WrongModeError
  | SlotAlreadySetError
  | SliceOutOfRange
  | Unimplemented

namespace PublicInput

/-- Creates an empty public input instance (`PublicInput::new`). -/
def new (F : Type) (io : CircuitIO) : PublicInput F :=
  match io with
  | .Bytes _ => .Bytes []
  | .Elements _ => .Elements []
  | .RecursiveProofs => .RecursiveProofs []
  | .CyclicProof => .CyclicProof [] Option.none Option.none
  | .None => .None

/-- Models the sequential byte decoding done in the `Bytes` arm of
`from_proof_with_pis`: `ValueStream::from_values(elements)` followed by
`io.input.len()` calls of `stream.read_value::<ByteVariable>()`, each of
which consumes the next `nbElems = ByteVariable::nb_elements()` field
elements of the stream and decodes them to one byte through the external
codec `decodeByte`. -/
def readBytes (F : Type) (nbElems : Nat) (decodeByte : List F → Nat) :
    Nat → List F → List Nat
  | 0, _ => []
  | n + 1, elems =>
      decodeByte (elems.take nbElems) ::
        readBytes F nbElems decodeByte n (elems.drop nbElems)

/-- Creates a public input instance with data from the proof with public
inputs (`PublicInput::from_proof_with_pis`).  `nbElems` stands for the
external codec constant `ByteVariable::nb_elements()` and `decodeByte`
for the codec's byte decoder.  The Rust slice
`proof_with_pis.public_inputs[..offset]` panics when `offset` exceeds
the buffer length; that panic is the `SliceOutOfRange` branch.  The
`RecursiveProofs` and `CyclicProof` arms are `todo!()` in the source. -/
def from_proof_with_pis (F : Type) (nbElems : Nat) (decodeByte : List F → Nat)
    (io : CircuitIO) (proof_with_pis : ProofWithPublicInputs F) :
    Except PIError (PublicInput F) :=
  match io with
  | .Bytes ioInputLen =>
      if nbElems * ioInputLen ≤ proof_with_pis.public_inputs.length then
        .ok (.Bytes (readBytes F nbElems decodeByte ioInputLen
          (proof_with_pis.public_inputs.take (nbElems * ioInputLen))))
      else
        .error .SliceOutOfRange
  | .Elements ioInputLen =>
      if ioInputLen ≤ proof_with_pis.public_inputs.length then
        .ok (.Elements (proof_with_pis.public_inputs.take ioInputLen))
      else
        .error .SliceOutOfRange
  | .RecursiveProofs => .error .Unimplemented
  | .CyclicProof => .error .Unimplemented
  | .None => .ok .None

/-- Writes a value to the public circuit input using field-based
serialization (`PublicInput::write`); the generic codec call
`V::elements::<L::Field>(value)` is the parameter `enc`. -/
def write {F α : Type} (enc : α → List F) (value : α) :
    PublicInput F → Except PIError (PublicInput F)
  | .Elements input => .ok (.Elements (input ++ enc value))
  | .CyclicProof input p d => .ok (.CyclicProof (input ++ enc value) p d)
  | _ => .error .WrongModeError

/-- Writes a slice of field elements to the public circuit input
(`PublicInput::write_all`). -/
def write_all {F : Type} (value : List F) :
    PublicInput F → Except PIError (PublicInput F)
  | .Elements input => .ok (.Elements (input ++ value))
  | .CyclicProof input p d => .ok (.CyclicProof (input ++ value) p d)
  | _ => .error .WrongModeError

/-- Writes a value to the public circuit input using byte-based
serialization (`PublicInput::evm_write`); the codec call
`V::encode_value(value)` is the parameter `enc`. -/
def evm_write {F α : Type} (enc : α → List Nat) (value : α) :
    PublicInput F → Except PIError (PublicInput F)
  | .Bytes input => .ok (.Bytes (input ++ enc value))
  | _ => .error .WrongModeError

/-- Writes a stream of bytes to the public circuit input
(`PublicInput::evm_write_all`). -/
def evm_write_all {F : Type} (bytes : List Nat) :
    PublicInput F → Except PIError (PublicInput F)
  | .Bytes input => .ok (.Bytes (input ++ bytes))
  | _ => .error .WrongModeError

/-- Writes a proof to the public circuit input
(`PublicInput::proof_write`): appended for `RecursiveProofs`, one-shot
slot for `CyclicProof`. -/
def proof_write {F : Type} (proof : ProofWithPublicInputs F) :
    PublicInput F → Except PIError (PublicInput F)
  | .RecursiveProofs input => .ok (.RecursiveProofs (input ++ [proof]))
  | .CyclicProof _ (some _) _ => .error .SlotAlreadySetError
  | .CyclicProof input none dat => .ok (.CyclicProof input (some proof) dat)
  | _ => .error .WrongModeError

/-- Attaches verifier data to the public circuit input
(`PublicInput::data_write`): one-shot slot for `CyclicProof`, wrapping
the argument into `MyVerifierCircuitData`. -/
def data_write {F : Type} (data : VerifierCircuitData) :
    PublicInput F → Except PIError (PublicInput F)
  | .CyclicProof _ _ (some _) => .error .SlotAlreadySetError
  | .CyclicProof input ioProof none =>
      .ok (.CyclicProof input ioProof (some ⟨data.verifier_only, data.common⟩))
  | _ => .error .WrongModeError

/-- Sets a value to the circuit input (`PublicInput::set`), whose body is
`todo!()` for every variant: it panics before touching the container. -/
def set {F V α : Type} (_v : V) (_value : α) :
    PublicInput F → Except PIError (PublicInput F) :=
  fun _ => .error .Unimplemented

/-- Models the round-trip through the derived serde `Serialize` and
`Deserialize` instances of `PublicInput`: every field round-trips except
the third `CyclicProof` field, whose `#[serde(skip)]` attribute omits it
from the serialized form and restores the `Default` value (`none`) on
deserialization. -/
def serdeRoundTrip {F : Type} : PublicInput F → PublicInput F
  | .CyclicProof elems pf _ => .CyclicProof elems pf Option.none
  | pi => pi

/-- Spec table, section 4.2, transcribed from the spec's words for
comparison with the code: the modes for which the field-element writes
(`write`, `write_all`) are listed as valid. -/
def fieldIoListed {F : Type} : PublicInput F → Bool
  | .Elements _ => true
  | .CyclicProof _ _ _ => true
  | _ => false

/-- Spec table, section 4.3, transcribed from the spec's words: the modes
for which the byte writes (`evm_write`, `evm_write_all`) are listed as
valid. -/
def evmIoListed {F : Type} : PublicInput F → Bool
  | .Bytes _ => true
  | _ => false

/-- Spec table, section 4.4, transcribed from the spec's words: the modes
for which proof registration (`proof_write`) is listed as valid. -/
def proofIoListed {F : Type} : PublicInput F → Bool
  | .RecursiveProofs _ => true
  | .CyclicProof _ _ _ => true
  | _ => false

/-- Spec table, section 4.4, transcribed from the spec's words: the modes
for which metadata attachment (`data_write`) is listed as valid. -/
def dataIoListed {F : Type} : PublicInput F → Bool
  | .CyclicProof _ _ _ => true
  | _ => false

/-- Recognizer for the `RemoteRecursiveProofs` variant. -/
def isRemote {F : Type} : PublicInput F → Bool
  | .RemoteRecursiveProofs _ => true
  | _ => false

/-- One mutation call against a container, carrying its payload.  The
generic writes carry the already-codec-encoded payload, since the
container code only ever sees the result of the codec call. -/
inductive Op (F : Type) where
  | write (vals : List F)
  | write_all (vals : List F)
  | evm_write (bytes : List Nat)
  | evm_write_all (bytes : List Nat)
  | proof_write (proof : ProofWithPublicInputs F)
  | data_write (data : VerifierCircuitData)

/-- Runs one mutation call; the generic writes are instantiated with the
identity encoder, which covers every encoder because `write` and
`evm_write` use their value argument only through `enc value`. -/
def runOp {F : Type} (op : Op F) (pi : PublicInput F) :
    Except PIError (PublicInput F) :=
  match op with
  | .write vals => write (fun l : List F => l) vals pi
  | .write_all vals => write_all vals pi
  | .evm_write bytes => evm_write (fun l : List Nat => l) bytes pi
  | .evm_write_all bytes => evm_write_all bytes pi
  | .proof_write proof => proof_write proof pi
  | .data_write data => data_write data pi

/-- Runs a sequence of mutation calls, stopping at the first panic. -/
def runOps {F : Type} : List (Op F) → PublicInput F → Except PIError (PublicInput F)
  | [], pi => .ok pi
  | op :: ops, pi =>
      match runOp op pi with
      | .ok pi2 => runOps ops pi2
      | .error e => .error e

/-- Runs a sequence of `write` calls with a fixed encoder, stopping at
the first panic. -/
def writeSeq {F α : Type} (enc : α → List F) :
    List α → PublicInput F → Except PIError (PublicInput F)
  | [], pi => .ok pi
  | v :: vs, pi =>
      match write enc v pi with
      | .ok pi2 => writeSeq enc vs pi2
      | .error e => .error e

end PublicInput

/-! Helper lemmas, shared between the claims below. -/

/-- Appending writes onto an `Elements` container concatenates the
encodings after the existing contents. -/
theorem writeSeq_elements {F α : Type} (enc : α → List F) :
    ∀ (vs : List α) (init : List F),
      PublicInput.writeSeq enc vs (.Elements init)
        = .ok (.Elements (init ++ (vs.map enc).flatten)) := by
  intro vs
  induction vs with
  | nil => intro init; simp [PublicInput.writeSeq]
  | cons v vs ih =>
      intro init
      simp [PublicInput.writeSeq, PublicInput.write, ih, List.append_assoc]

/-- The stream decoder produces exactly one byte per requested read. -/
theorem readBytes_length {F : Type} (nbElems : Nat) (decodeByte : List F → Nat) :
    ∀ (n : Nat) (elems : List F),
      (PublicInput.readBytes F nbElems decodeByte n elems).length = n := by
  intro n
  induction n with
  | zero => intro elems; rfl
  | succ n ih => intro elems; simp [PublicInput.readBytes, ih]

/-- A successful mutation call never changes whether the container is in
the `RemoteRecursiveProofs` variant. -/
theorem runOp_preserves_isRemote {F : Type} (op : PublicInput.Op F)
    (pi pi2 : PublicInput F) (h : PublicInput.runOp op pi = .ok pi2) :
    PublicInput.isRemote pi2 = PublicInput.isRemote pi := by
  cases op with
  | write vals =>
      cases pi <;>
        simp_all [PublicInput.runOp, PublicInput.write, PublicInput.isRemote] <;>
        subst h <;> rfl
  | write_all vals =>
      cases pi <;>
        simp_all [PublicInput.runOp, PublicInput.write_all, PublicInput.isRemote] <;>
        subst h <;> rfl
  | evm_write bytes =>
      cases pi <;>
        simp_all [PublicInput.runOp, PublicInput.evm_write, PublicInput.isRemote] <;>
        subst h <;> rfl
  | evm_write_all bytes =>
      cases pi <;>
        simp_all [PublicInput.runOp, PublicInput.evm_write_all, PublicInput.isRemote] <;>
        subst h <;> rfl
  | proof_write proof =>
      cases pi with
      | CyclicProof elems pf md =>
          cases pf <;>
            simp_all [PublicInput.runOp, PublicInput.proof_write, PublicInput.isRemote] <;>
            subst h <;> rfl
      | Bytes bs =>
          simp_all [PublicInput.runOp, PublicInput.proof_write]
      | Elements es =>
          simp_all [PublicInput.runOp, PublicInput.proof_write]
      | RecursiveProofs ps =>
          simp_all [PublicInput.runOp, PublicInput.proof_write, PublicInput.isRemote]
          subst h
          rfl
      | RemoteRecursiveProofs ids =>
          simp_all [PublicInput.runOp, PublicInput.proof_write]
      | None =>
          simp_all [PublicInput.runOp, PublicInput.proof_write]
  | data_write data =>
      cases pi with
      | CyclicProof elems pf md =>
          cases md <;>
            simp_all [PublicInput.runOp, PublicInput.data_write, PublicInput.isRemote] <;>
            subst h <;> rfl
      | Bytes bs =>
          simp_all [PublicInput.runOp, PublicInput.data_write]
      | Elements es =>
          simp_all [PublicInput.runOp, PublicInput.data_write]
      | RecursiveProofs ps =>
          simp_all [PublicInput.runOp, PublicInput.data_write]
      | RemoteRecursiveProofs ids =>
          simp_all [PublicInput.runOp, PublicInput.data_write]
      | None =>
          simp_all [PublicInput.runOp, PublicInput.data_write]

/-- A successful sequence of mutation calls never changes whether the
container is in the `RemoteRecursiveProofs` variant. -/
theorem runOps_preserves_isRemote {F : Type} :
    ∀ (ops : List (PublicInput.Op F)) (pi pi2 : PublicInput F),
      PublicInput.runOps ops pi = .ok pi2 →
      PublicInput.isRemote pi2 = PublicInput.isRemote pi := by
  intro ops
  induction ops with
  | nil =>
      intro pi pi2 h
      simp [PublicInput.runOps] at h
      rw [h]
  | cons op ops ih =>
      intro pi pi2 h
      simp only [PublicInput.runOps] at h
      cases heq : PublicInput.runOp op pi with
      | ok pim =>
          rw [heq] at h
          exact (ih pim pi2 h).trans (runOp_preserves_isRemote op pi pim heq)
      | error e =>
          rw [heq] at h
          exact absurd h (by simp)

/-! The claims. -/

/-- C8: for every IO declaration `d`, `new d` produces a container whose
active mode matches `d`, whose sequence-valued fields are empty, and
whose optional slots (the `CyclicProof` proof and metadata slots) are
unset. -/
theorem new_matches_mode_and_is_empty (F : Type) :
    (∀ n, PublicInput.new F (.Bytes n) = .Bytes []) ∧
    (∀ n, PublicInput.new F (.Elements n) = .Elements []) ∧
    PublicInput.new F .RecursiveProofs = .RecursiveProofs [] ∧
    PublicInput.new F .CyclicProof = .CyclicProof [] Option.none Option.none ∧
    PublicInput.new F .None = .None :=
  ⟨fun _ => rfl, fun _ => rfl, rfl, rfl, rfl⟩

/-- C2: in `CyclicProof` mode the proof slot and the metadata slot each
transition at most once from empty to filled: the first `proof_write p1`
sets the proof slot to `p1` and a second `proof_write p2` fails with
`SlotAlreadySetError`; likewise the first `data_write` fills the metadata
slot and a second attempt fails with `SlotAlreadySetError`. -/
theorem cyclic_one_shot_slots (F : Type) :
    (∀ (elems : List F) (md : Option MyVerifierCircuitData)
        (p1 p2 : ProofWithPublicInputs F),
      PublicInput.proof_write p1 (.CyclicProof elems Option.none md)
          = .ok (.CyclicProof elems (some p1) md) ∧
      PublicInput.proof_write p2 (.CyclicProof elems (some p1) md)
          = .error .SlotAlreadySetError) ∧
    (∀ (elems : List F) (pf : Option (ProofWithPublicInputs F))
        (d1 d2 : VerifierCircuitData),
      PublicInput.data_write d1 (.CyclicProof elems pf Option.none)
          = .ok (.CyclicProof elems pf
              (some ⟨d1.verifier_only, d1.common⟩)) ∧
      ∀ m, PublicInput.data_write d2 (.CyclicProof elems pf (some m))
          = .error .SlotAlreadySetError) :=
  ⟨fun _ _ _ _ => ⟨rfl, rfl⟩, fun _ _ _ _ => ⟨rfl, fun _ => rfl⟩⟩

/-- C5: the `CyclicProof` metadata slot is excluded from the serialized
encoding: serializing and then deserializing any `CyclicProof` container
yields a container with the same element sequence and proof slot and an
unset metadata slot, whatever the original metadata slot held. -/
theorem cyclic_metadata_not_serialized (F : Type) :
    ∀ (elems : List F) (pf : Option (ProofWithPublicInputs F))
      (md : Option MyVerifierCircuitData),
      PublicInput.serdeRoundTrip (.CyclicProof elems pf md)
        = .CyclicProof elems pf Option.none :=
  fun _ _ _ => rfl

/-- C6: for an `Elements` container starting empty, writing values
`v1, ..., vn` via `write` in order leaves the underlying field-element
sequence equal to the concatenation of the codec encodings of the `vi`,
in call order. -/
theorem elements_write_concat (F α : Type) (enc : α → List F) (vs : List α) :
    PublicInput.writeSeq enc vs (.Elements [])
      = .ok (.Elements (vs.map enc).flatten) := by
  simpa using writeSeq_elements enc vs []

/-- C7: for a `Bytes` container starting empty, `evm_write v` followed by
`evm_write_all raw` leaves the byte buffer equal to the codec's byte
encoding of `v` concatenated with `raw`. -/
theorem bytes_write_concat (F α : Type) (enc : α → List Nat) (v : α)
    (raw : List Nat) :
    (PublicInput.evm_write enc v (PublicInput.Bytes [] : PublicInput F)).bind
        (PublicInput.evm_write_all raw)
      = .ok (.Bytes (enc v ++ raw)) :=
  rfl

/-- C10: for every container of every mode and every variable/value pair,
`set` terminates with the fatal unimplemented error and never returns a
mutated container. -/
theorem set_always_unimplemented (F V α : Type) :
    ∀ (v : V) (value : α) (pi : PublicInput F),
      PublicInput.set v value pi = .error .Unimplemented :=
  fun _ _ _ => rfl

/-- C1: every write/register operation invoked on a container whose mode
the spec's section 4 tables do not list as valid for it fails with
`WrongModeError` (yielding no modified container); in particular a
container built by `new` from the `None` declaration makes every
write/register operation fail with `WrongModeError`. -/
theorem wrong_mode_always_rejected (F : Type) :
    (∀ (α : Type) (enc : α → List F) (value : α) (pi : PublicInput F),
        PublicInput.fieldIoListed pi = false →
        PublicInput.write enc value pi = .error .WrongModeError) ∧
    (∀ (value : List F) (pi : PublicInput F),
        PublicInput.fieldIoListed pi = false →
        PublicInput.write_all value pi = .error .WrongModeError) ∧
    (∀ (α : Type) (enc : α → List Nat) (value : α) (pi : PublicInput F),
        PublicInput.evmIoListed pi = false →
        PublicInput.evm_write enc value pi = .error .WrongModeError) ∧
    (∀ (bytes : List Nat) (pi : PublicInput F),
        PublicInput.evmIoListed pi = false →
        PublicInput.evm_write_all bytes pi = .error .WrongModeError) ∧
    (∀ (proof : ProofWithPublicInputs F) (pi : PublicInput F),
        PublicInput.proofIoListed pi = false →
        PublicInput.proof_write proof pi = .error .WrongModeError) ∧
    (∀ (data : VerifierCircuitData) (pi : PublicInput F),
        PublicInput.dataIoListed pi = false →
        PublicInput.data_write data pi = .error .WrongModeError) ∧
    (∀ (α : Type) (enc : α → List F) (value : α),
        PublicInput.write enc value (PublicInput.new F .None)
          = .error .WrongModeError) ∧
    (∀ value : List F,
        PublicInput.write_all value (PublicInput.new F .None)
          = .error .WrongModeError) ∧
    (∀ (α : Type) (enc : α → List Nat) (value : α),
        PublicInput.evm_write enc value (PublicInput.new F .None)
          = .error .WrongModeError) ∧
    (∀ bytes : List Nat,
        PublicInput.evm_write_all bytes (PublicInput.new F .None)
          = .error .WrongModeError) ∧
    (∀ proof : ProofWithPublicInputs F,
        PublicInput.proof_write proof (PublicInput.new F .None)
          = .error .WrongModeError) ∧
    (∀ data : VerifierCircuitData,
        PublicInput.data_write data (PublicInput.new F .None)
          = .error .WrongModeError) := by
  refine ⟨?_, ?_, ?_, ?_, ?_, ?_,
    fun _ _ _ => rfl, fun _ => rfl, fun _ _ _ => rfl, fun _ => rfl,
    fun _ => rfl, fun _ => rfl⟩
  · intro α enc value pi h
    cases pi <;>
      simp_all [PublicInput.write, PublicInput.fieldIoListed]
  · intro value pi h
    cases pi <;>
      simp_all [PublicInput.write_all, PublicInput.fieldIoListed]
  · intro α enc value pi h
    cases pi <;>
      simp_all [PublicInput.evm_write, PublicInput.evmIoListed]
  · intro bytes pi h
    cases pi <;>
      simp_all [PublicInput.evm_write_all, PublicInput.evmIoListed]
  · intro proof pi h
    cases pi with
    | CyclicProof elems pf md =>
        simp_all [PublicInput.proofIoListed]
    | _ =>
        simp_all [PublicInput.proof_write, PublicInput.proofIoListed]
  · intro data pi h
    cases pi with
    | CyclicProof elems pf md =>
        simp_all [PublicInput.dataIoListed]
    | _ =>
        simp_all [PublicInput.data_write, PublicInput.dataIoListed]

/-- Witness for C1: the mode check and the rejection, evaluated at a
byte write against an `Elements` container over `Nat`. -/
theorem wrong_mode_always_rejected_witness :
    PublicInput.evmIoListed (PublicInput.Elements [7] : PublicInput Nat)
        = false ∧
    PublicInput.evm_write (fun n : Nat => [n]) 5
        (PublicInput.Elements [7] : PublicInput Nat)
      = .error .WrongModeError :=
  ⟨rfl, (wrong_mode_always_rejected Nat).2.2.1 Nat (fun n => [n]) 5
      (PublicInput.Elements [7]) rfl⟩

/-- C3: for a `Bytes` or `Elements` declaration, if the proof's
public-output buffer is shorter than the length the declaration implies
(declared element count for `Elements`; declared byte count times the
codec's elements-per-byte for `Bytes`), `from_proof_with_pis` terminates
with a fatal explicit error instead of reading a truncated or
out-of-bounds slice of the buffer. -/
theorem extraction_short_buffer_is_fatal (F : Type) (nbElems : Nat)
    (decodeByte : List F → Nat) :
    (∀ (n : Nat) (proof : ProofWithPublicInputs F),
        proof.public_inputs.length < n →
        PublicInput.from_proof_with_pis F nbElems decodeByte (.Elements n) proof
          = .error .SliceOutOfRange) ∧
    (∀ (n : Nat) (proof : ProofWithPublicInputs F),
        proof.public_inputs.length < nbElems * n →
        PublicInput.from_proof_with_pis F nbElems decodeByte (.Bytes n) proof
          = .error .SliceOutOfRange) := by
  constructor
  · intro n proof h
    simp only [PublicInput.from_proof_with_pis]
    rw [if_neg (by omega)]
  · intro n proof h
    simp only [PublicInput.from_proof_with_pis]
    rw [if_neg (by omega)]

/-- Witness for C3: a two-element buffer is too short both for an
`Elements` declaration of three inputs and for a `Bytes` declaration of
two bytes at two elements per byte. -/
theorem extraction_short_buffer_is_fatal_witness :
    (ProofWithPublicInputs.mk 0 [1, 2] : ProofWithPublicInputs Nat).public_inputs.length < 3 ∧
    PublicInput.from_proof_with_pis Nat 2 (fun _ => 0) (.Elements 3) ⟨0, [1, 2]⟩
        = .error .SliceOutOfRange ∧
    PublicInput.from_proof_with_pis Nat 2 (fun _ => 0) (.Bytes 2) ⟨0, [1, 2]⟩
        = .error .SliceOutOfRange :=
  ⟨by decide,
   (extraction_short_buffer_is_fatal Nat 2 (fun _ => 0)).1 3 ⟨0, [1, 2]⟩
     (by decide),
   (extraction_short_buffer_is_fatal Nat 2 (fun _ => 0)).2 2 ⟨0, [1, 2]⟩
     (by decide)⟩

/-- C4: when the proof's public-output buffer is at least as long as the
declaration implies, `from_proof_with_pis` with an `Elements` declaration
of `n` inputs returns the `Elements` container holding exactly the first
`n` field elements of the buffer; with a `Bytes` declaration of `n` bytes
it decodes the prefix of length `n * nbElems` through the codec's stream
reader into exactly `n` bytes; and with a `None` declaration it returns
the empty `None` container unconditionally, for every proof. -/
theorem extraction_returns_declared_slice (F : Type) (nbElems : Nat)
    (decodeByte : List F → Nat) :
    (∀ (n : Nat) (proof : ProofWithPublicInputs F),
        n ≤ proof.public_inputs.length →
        PublicInput.from_proof_with_pis F nbElems decodeByte (.Elements n) proof
          = .ok (.Elements (proof.public_inputs.take n))) ∧
    (∀ (n : Nat) (proof : ProofWithPublicInputs F),
        nbElems * n ≤ proof.public_inputs.length →
        PublicInput.from_proof_with_pis F nbElems decodeByte (.Bytes n) proof
            = .ok (.Bytes (PublicInput.readBytes F nbElems decodeByte n
                (proof.public_inputs.take (nbElems * n)))) ∧
          (PublicInput.readBytes F nbElems decodeByte n
              (proof.public_inputs.take (nbElems * n))).length = n) ∧
    (∀ proof : ProofWithPublicInputs F,
        PublicInput.from_proof_with_pis F nbElems decodeByte .None proof
          = .ok .None) := by
  refine ⟨?_, ?_, fun _ => rfl⟩
  · intro n proof h
    simp only [PublicInput.from_proof_with_pis]
    rw [if_pos h]
  · intro n proof h
    constructor
    · simp only [PublicInput.from_proof_with_pis]
      rw [if_pos h]
    · exact readBytes_length nbElems decodeByte n _

/-- Witness for C4: a four-element buffer over `Nat`, extracted as three
elements and as two bytes of two elements each, the byte decoder being
addition over the chunk. -/
theorem extraction_returns_declared_slice_witness :
    (3 ≤ ([10, 20, 30, 40] : List Nat).length) ∧
    PublicInput.from_proof_with_pis Nat 2 (fun l => l.sum) (.Elements 3)
        ⟨0, [10, 20, 30, 40]⟩
      = .ok (.Elements [10, 20, 30]) ∧
    PublicInput.from_proof_with_pis Nat 2 (fun l => l.sum) (.Bytes 2)
        ⟨0, [10, 20, 30, 40]⟩
      = .ok (.Bytes [30, 70]) :=
  ⟨by decide,
   by
    have h := (extraction_returns_declared_slice Nat 2 (fun l => l.sum)).1 3
      ⟨0, [10, 20, 30, 40]⟩ (by decide)
    simpa using h,
   by
    have h := ((extraction_returns_declared_slice Nat 2 (fun l => l.sum)).2.1 2
      ⟨0, [10, 20, 30, 40]⟩ (by decide)).1
    simpa [PublicInput.readBytes] using h⟩

/-- C9: the `RemoteRecursiveProofs` variant is unreachable through the
public interface: no IO declaration makes `new` produce it, every
write/register operation invoked on a `RemoteRecursiveProofs` container
fails with `WrongModeError`, and every container reached from `new` by
any sequence of successful write/register operations is never in the
`RemoteRecursiveProofs` variant. -/
theorem remote_recursive_proofs_unreachable (F : Type) :
    (∀ io : CircuitIO, PublicInput.isRemote (PublicInput.new F io) = false) ∧
    (∀ (op : PublicInput.Op F) (ids : List Nat),
        PublicInput.runOp op (.RemoteRecursiveProofs ids)
          = .error .WrongModeError) ∧
    (∀ (io : CircuitIO) (ops : List (PublicInput.Op F)) (pi : PublicInput F),
        PublicInput.runOps ops (PublicInput.new F io) = .ok pi →
        PublicInput.isRemote pi = false) := by
  refine ⟨fun io => ?_, fun op ids => ?_, fun io ops pi h => ?_⟩
  · cases io <;> rfl
  · cases op <;> rfl
  · have hbase : PublicInput.isRemote (PublicInput.new F io) = false := by
      cases io <;> rfl
    exact (runOps_preserves_isRemote ops (PublicInput.new F io) pi h).trans hbase

/-- Witness for C9: a successful two-call run from an `Elements`
declaration, whose result is indeed not remote. -/
theorem remote_recursive_proofs_unreachable_witness :
    PublicInput.runOps
        [PublicInput.Op.write_all [1], PublicInput.Op.write [2, 3]]
        (PublicInput.new Nat (.Elements 3))
      = .ok (.Elements [1, 2, 3]) ∧
    PublicInput.isRemote (PublicInput.Elements [1, 2, 3] : PublicInput Nat)
      = false :=
  ⟨rfl,
   (remote_recursive_proofs_unreachable Nat).2.2 (.Elements 3)
     [PublicInput.Op.write_all [1], PublicInput.Op.write [2, 3]]
     (PublicInput.Elements [1, 2, 3]) rfl⟩
